import Mathlib

/-!
Shallow embedding of the session/orchestration core of the roaming-assistant
repository (src/conversation/state.js, the chat handler in src/unnamed/part_003,
the rate-limiting middleware in src/unnamed/part_000, and the gated-tool
approval predicate in src/agent/config.js), together with theorems settling
the frozen claims about it.

Timestamps are modelled as natural numbers of milliseconds; each JS operation
reads the clock through a single `now` parameter (all `Date.now()` / `new Date()`
calls inside one operation are the same instant).  The process-wide JS `Map`s
are modelled as association lists threaded through the operations.  The external
reasoning layer (`run`, `RunState.fromString`, `approve`) is modelled by an
oracle recording which of those calls succeed and what they return.
-/

namespace RoamingCore

/-! ## JavaScript string helpers -/

/-- Does the pattern occur at the start of the character list? -/
def charListStartsWith : List Char → List Char → Bool
  | [], _ => true
  | _ :: _, [] => false
  | a :: xs, b :: ys => a = b && charListStartsWith xs ys

/-- Does the pattern occur anywhere inside the character list?  Models
JavaScript `String.prototype.includes`. -/
def charListOccurs : List Char → List Char → Bool
  | pat, [] => pat.isEmpty
  | pat, c :: rest => charListStartsWith pat (c :: rest) || charListOccurs pat rest

/-- JS `s.includes(pat)`. -/
def strIncludes (s pat : String) : Bool :=
  charListOccurs pat.data s.data

/-- JS `o || d` for an optional string: `undefined`/`null` and `""` are falsy. -/
def jsOrStr : Option String → String → String
  | none, d => d
  | some s, d => if s = "" then d else s

/-- JS truthiness of a nullable string (`null`/`undefined` and `""` are falsy). -/
def jsTruthyStr : Option String → Bool
  | none => false
  | some s => if s = "" then false else true

/-- JS `s.trim()`: strip leading and trailing whitespace. -/
def strTrim (s : String) : String :=
  ⟨((s.data.dropWhile fun c => c.isWhitespace).reverse.dropWhile fun c => c.isWhitespace).reverse⟩

/-- JS `s.toLowerCase()` (ASCII case folding, which is all the keyword lists need). -/
def strToLower (s : String) : String :=
  ⟨s.data.map Char.toLower⟩

/-! ## Association-list model of a JS `Map` -/

/-- JS `map.get(k)` (first matching key). -/
def lookupKey {α : Type} : List (String × α) → String → Option α
  | [], _ => none
  | (k, v) :: rest, key => if k = key then some v else lookupKey rest key

/-- JS `map.set(k, v)`: replace the existing entry, else append. -/
def insertKey {α : Type} : List (String × α) → String → α → List (String × α)
  | [], key, v => [(key, v)]
  | (k, w) :: rest, key, v =>
    if k = key then (key, v) :: rest else (k, w) :: insertKey rest key v

/-- JS `map.delete(k)`. -/
def removeKey {α : Type} : List (String × α) → String → List (String × α)
  | [], _ => []
  | (k, w) :: rest, key => if k = key then rest else (k, w) :: removeKey rest key

/-! ## Data model (src/conversation/state.js) -/

/-- Conversation phase of a session. -/
inductive Phase where
  | intentDetection
  | confirmation
  | approval
  | dataCollection
  | recommendation
  deriving DecidableEq

/-- Travel dates inside the intent record (JS fields `start` / `end`). -/
structure TravelDates where
  startDate : Option Nat
  endDate : Option Nat
  deriving DecidableEq

/-- The `intent` record of a session. -/
structure Intent where
  destination : Option String
  travelDates : TravelDates
  confirmed : Bool
  userApproved : Bool
  detectedAt : Option Nat
  confirmedAt : Option Nat
  deriving DecidableEq

/-- One entry of the session's message log. -/
inductive Role where
  | user
  | assistant
  deriving DecidableEq

/-- A logged chat message. -/
structure Message where
  role : Role
  content : String
  timestamp : Nat
  deriving DecidableEq

/-- A simplified pending tool call stored in `pendingInterruptions`
(`{ name, agentName, arguments, original }`); `originalPresent` records
whether the `original` field holds the (truthy) original interruption. -/
structure PendingCall where
  name : String
  agentName : String
  arguments : String
  originalPresent : Bool
  deriving DecidableEq

/-- A session record of the store (the opaque `conversationsSession` handle is
owned by the external layer and carried implicitly). -/
structure Session where
  sessionId : String
  userId : String
  createdAt : Nat
  lastActivityAt : Nat
  expiresAt : Nat
  phase : Phase
  intent : Intent
  usageData : Option String
  roamingPlans : List String
  recommendation : Option String
  messages : List Message
  pendingRunState : Option String
  pendingInterruptions : List PendingCall
  deriving DecidableEq

/-- The process-wide `sessions` map. -/
abbrev Store := List (String × Session)

/-! ## Session store operations (src/conversation/state.js) -/

/-- Bound on the stored message log (`MAX_MESSAGES` in `updateSession`). -/
def MAX_MESSAGES : Nat := 20

/-- The freshly created session object of `createSession`. -/
def freshSession (sessionId userId : String) (now timeout : Nat) : Session :=
  { sessionId := sessionId
    userId := userId
    createdAt := now
    lastActivityAt := now
    expiresAt := now + timeout
    phase := .intentDetection
    intent :=
      { destination := none
        travelDates := { startDate := none, endDate := none }
        confirmed := false
        userApproved := false
        detectedAt := none
        confirmedAt := none }
    usageData := none
    roamingPlans := []
    recommendation := none
    messages := []
    pendingRunState := none
    pendingInterruptions := [] }

/-- `createSession(userId)`; the fresh session id is produced externally by the
conversations SDK and passed in as `newSessionId`. -/
def createSession (st : Store) (now timeout : Nat) (newSessionId userId : String) :
    Store × String :=
  (insertKey st newSessionId (freshSession newSessionId userId now timeout), newSessionId)

/-- `getSession(sessionId)`: absent on falsy/unknown id; lazily evicts an
entry whose expiry has passed (`new Date() > session.expiresAt`). -/
def getSession (st : Store) (now : Nat) (sid : String) : Option Session × Store :=
  if sid = "" then (none, st)
  else
    match lookupKey st sid with
    | none => (none, st)
    | some s => if now > s.expiresAt then (none, removeKey st sid) else (some s, st)

/-- The partial-update object accepted by `updateSession`.  Across the
repository the callers only ever pass these keys (`messages`, `intent`,
`phase`, `pendingRunState`, `pendingInterruptions`); a `some none` for
`pendingRunState` models an explicit `pendingRunState: null`. -/
structure Updates where
  messages : Option (List Message) := none
  intent : Option Intent := none
  phase : Option Phase := none
  pendingRunState : Option (Option String) := none
  pendingInterruptions : Option (List PendingCall) := none

/-- The `slice(-MAX_MESSAGES)` truncation of `updateSession`. -/
def truncateMessages (msgs : List Message) : List Message :=
  if msgs.length > MAX_MESSAGES then msgs.drop (msgs.length - MAX_MESSAGES) else msgs

/-- The merged session built by `updateSession` (`{...session, ...updates,
messages, lastActivityAt: new Date(), expiresAt: now + TIMEOUT}`). -/
def applyUpdates (s : Session) (u : Updates) (now timeout : Nat) : Session :=
  { s with
    messages := truncateMessages (u.messages.getD s.messages)
    intent := u.intent.getD s.intent
    phase := u.phase.getD s.phase
    pendingRunState := u.pendingRunState.getD s.pendingRunState
    pendingInterruptions := u.pendingInterruptions.getD s.pendingInterruptions
    lastActivityAt := now
    expiresAt := now + timeout }

/-- `updateSession(sessionId, updates)`. -/
def updateSession (st : Store) (now timeout : Nat) (sid : String) (u : Updates) :
    Option Session × Store :=
  match getSession st now sid with
  | (none, st1) => (none, st1)
  | (some s, st1) =>
    let s1 := applyUpdates s u now timeout
    (some s1, insertKey st1 sid s1)

/-- Partial update of the intent record (`updateIntent` merges it with
`{...session.intent, ...intentUpdates}`). -/
structure IntentUpdates where
  destination : Option String := none
  confirmed : Option Bool := none
  userApproved : Option Bool := none
  detectedAt : Option Nat := none
  confirmedAt : Option Nat := none

/-- The `{...session.intent, ...intentUpdates}` merge of `updateIntent`. -/
def mergeIntent (i : Intent) (u : IntentUpdates) : Intent :=
  { destination := match u.destination with | some d => some d | none => i.destination
    travelDates := i.travelDates
    confirmed := u.confirmed.getD i.confirmed
    userApproved := u.userApproved.getD i.userApproved
    detectedAt := match u.detectedAt with | some t => some t | none => i.detectedAt
    confirmedAt := match u.confirmedAt with | some t => some t | none => i.confirmedAt }

/-- `updateIntent(sessionId, intentUpdates)`. -/
def updateIntent (st : Store) (now timeout : Nat) (sid : String) (iu : IntentUpdates) :
    Option Session × Store :=
  match getSession st now sid with
  | (none, st1) => (none, st1)
  | (some s, st1) =>
    updateSession st1 now timeout sid { intent := some (mergeIntent s.intent iu) }

/-- The `validTransitions` table of `transitionPhase`. -/
def validTransitions : Phase → List Phase
  | .intentDetection => [.confirmation]
  | .confirmation => [.approval, .intentDetection]
  | .approval => [.dataCollection, .confirmation]
  | .dataCollection => [.recommendation]
  | .recommendation => []

/-- `transitionPhase(sessionId, newPhase)`: a disallowed target is a logged
no-op returning the session unchanged. -/
def transitionPhase (st : Store) (now timeout : Nat) (sid : String) (newPhase : Phase) :
    Option Session × Store :=
  match getSession st now sid with
  | (none, st1) => (none, st1)
  | (some s, st1) =>
    if newPhase ∈ validTransitions s.phase then
      updateSession st1 now timeout sid { phase := some newPhase }
    else
      (some s, st1)

/-- `setPendingRunState(sessionId, stateString, interruptions)`; the JS
`interruptions || []` default is the `Option.getD`. -/
def setPendingRunState (st : Store) (now timeout : Nat) (sid : String)
    (stateString : String) (interruptions : Option (List PendingCall)) :
    Option Session × Store :=
  updateSession st now timeout sid
    { pendingRunState := some (some stateString)
      pendingInterruptions := some (interruptions.getD []) }

/-- `clearPendingRunState(sessionId)`. -/
def clearPendingRunState (st : Store) (now timeout : Nat) (sid : String) :
    Option Session × Store :=
  updateSession st now timeout sid
    { pendingRunState := some none, pendingInterruptions := some [] }

/-- `cleanupExpiredSessions()`: deletes every entry with `now > expiresAt`
and reports how many were removed. -/
def cleanupExpiredSessions (st : Store) (now : Nat) : Store × Nat :=
  (st.filter (fun p => decide (now ≤ p.2.expiresAt)),
   (st.filter (fun p => decide (p.2.expiresAt < now))).length)

/-! ## Intent and approval heuristics (chat handler, src/unnamed/part_003) -/

/-- The `approvalKeywords` list of the chat handler. -/
def approvalKeywords : List String :=
  ["是", "對", "好", "ok", "OK", "可以", "請", "繼續", "要", "需要", "批准", "同意", "沒錯"]

/-- `approvalKeywords.some(k => message.includes(k))`. -/
def isApprovalMessage (message : String) : Bool :=
  approvalKeywords.any (fun k => strIncludes message k)

/-- The `countryKeywords` list of `analyzeAgentResponse`. -/
def countryKeywords : List String :=
  ["日本", "韓國", "美國", "英國", "法國", "德國", "義大利",
   "西班牙", "泰國", "新加坡", "馬來西亞", "香港", "澳門",
   "中國", "澳洲", "紐西蘭", "加拿大", "越南", "印尼"]

/-- The `confirmationKeywords` list of `analyzeAgentResponse`. -/
def confirmationKeywords : List String :=
  ["是", "對", "沒錯", "正確", "好", "OK", "可以", "請幫我", "麻煩", "繼續", "要", "需要"]

/-- First country of the list (by list order) occurring in either the user
message or the agent response. -/
def detectCountry (userMessage response : String) : Option String :=
  countryKeywords.find? (fun c => strIncludes userMessage c || strIncludes response c)

/-- The updates object produced by `analyzeAgentResponse`. -/
structure StateUpdates where
  intent : Option IntentUpdates
  phase : Option Phase

/-- The empty updates object (`{intent: null, phase: null}`). -/
def noStateUpdates : StateUpdates :=
  { intent := none, phase := none }

/-- `analyzeAgentResponse(response, session, userMessage)`: the keyword state
machine run after each turn. -/
def analyzeAgentResponse (response : String) (session : Session) (userMessage : String)
    (now : Nat) : StateUpdates :=
  match session.phase with
  | .intentDetection =>
    match detectCountry userMessage response with
    | some c =>
      if jsTruthyStr session.intent.destination then noStateUpdates
      else
        { intent := some { destination := some c, detectedAt := some now,
                           confirmed := some false, userApproved := some false }
          phase := some .confirmation }
    | none => noStateUpdates
  | .confirmation =>
    if confirmationKeywords.any (fun k => strIncludes userMessage k) then
      { intent := some { confirmed := some true, confirmedAt := some now,
                         userApproved := some true }
        phase := some .dataCollection }
    else noStateUpdates
  | _ => noStateUpdates

/-! ## Gated-capability approval predicate (src/agent/config.js) -/

/-- The `trigger` keyword list of the `query_plans` `needsApproval` callback. -/
def queryPlansTriggerWords : List String :=
  ["方案", "查詢", "推薦", "漫遊"]

/-- The `needsApproval` callback of the `query_plans` tool:
`!ctx?.session?.intent?.userApproved && trigger.some(k => lower.includes(k))`.
`ctxUserApproved` is the optional-chained `userApproved` flag (`none` when any
link of the chain is missing, which JS treats as falsy). -/
def needsApprovalQueryPlans (ctxUserApproved : Option Bool) (input : String) : Bool :=
  let lower := strToLower input
  (!(ctxUserApproved.getD false)) && queryPlansTriggerWords.any (fun k => strIncludes lower k)

/-! ## Rate limiter (Express middleware, src/unnamed/part_000) -/

/-- One record of the `rateLimitStore` map. -/
structure RateRecord where
  count : Nat
  resetAt : Nat
  deriving DecidableEq

/-- The process-wide `rateLimitStore`. -/
abbrev RateStore := List (String × RateRecord)

/-- `RATE_LIMIT_REQUESTS`. -/
def RATE_LIMIT_REQUESTS : Nat := 10

/-- `RATE_LIMIT_WINDOW_MS`. -/
def RATE_LIMIT_WINDOW_MS : Nat := 60000

/-- `Math.ceil(x / 1000)` on an integer number of milliseconds. -/
def ceilSeconds (x : Int) : Int :=
  (x + 999).ediv 1000

/-- One pass of the `/api/chat` rate-limiting middleware for a key: returns
the updated store and `some retryAfterSeconds` when the request is rejected
with 429, `none` when it is passed through to `next()`. -/
def rateLimitStep (store : RateStore) (key : String) (now : Nat) :
    RateStore × Option Int :=
  let record :=
    match lookupKey store key with
    | none => { count := 0, resetAt := now + RATE_LIMIT_WINDOW_MS : RateRecord }
    | some r =>
      if now > r.resetAt then { count := 0, resetAt := now + RATE_LIMIT_WINDOW_MS } else r
  let record := { record with count := record.count + 1 }
  let store1 := insertKey store key record
  if record.count > RATE_LIMIT_REQUESTS then
    (store1, some (ceilSeconds ((record.resetAt : Int) - (now : Int))))
  else
    (store1, none)

/-! ## Orchestration turn (handleChatRequest, src/unnamed/part_003)

The external reasoning layer is abstracted by an oracle: which of the
`RunState.fromString` / `approve` / `run` calls succeed, and what each `run`
returns.  A `run` outcome is its interruption list, its `finalOutput` and the
serialized `state`. -/

/-- A raw interruption item reported by a run. -/
structure RawCall where
  name : String
  agentName : String
  arguments : String
  deriving DecidableEq

/-- The observable outcome of one successful `run(...)` call. -/
structure RunResult where
  interruptions : List RawCall
  finalOutput : Option String
  stateStr : String
  deriving DecidableEq

/-- The behaviour of the external reasoning layer during one turn.  A `none`
run outcome means that call threw. -/
structure AgentOracle where
  restoreOk : Bool
  approveOk : Bool
  resumeResult : Option RunResult
  firstResult : Option RunResult
  chainResults : List (Option RunResult)
  deriving DecidableEq

/-- The `simplified` projection stored by the suspension path
(`{name, agentName, arguments, original: i}`; `original` is always truthy). -/
def simplifyCall (c : RawCall) : PendingCall :=
  { name := c.name, agentName := c.agentName, arguments := c.arguments, originalPresent := true }

/-- Initial fallback reply (`assistantResponse` before the try block). -/
def apologyInitial : String :=
  "抱歉，我遇到了一些問題。請稍後再試。"

/-- Reply set by the catch block on an agent failure. -/
def apologyFailure : String :=
  "抱歉，系統目前無法處理您的請求。請稍後再試。"

/-- Fixed prompt re-asking for approval while a suspension is pending. -/
def reaskPrompt : String :=
  "目前有等待您確認的操作：是否允許查詢漫遊方案或產生推薦？請回覆「好」或「可以」來批准。"

/-- Fixed prompt announcing a new suspension. -/
def approvalNeededPrompt : String :=
  "需要您的確認才能繼續：是否允許我查詢漫遊方案或產生推薦？請回覆「好」或「可以」來批准。"

/-- The auto-approve loop (`while (currentResult.interruptions?.length > 0)`),
consuming the oracle's chain of successive run outcomes.  Result `none` means
the modelled trace ran out while interruptions kept coming (the source loop is
unbounded); `some none` means a run in the loop threw; `some (some r)` is the
terminal result. -/
def approveLoop : List (Option RunResult) → RunResult → Option (Option RunResult)
  | [], cur => if cur.interruptions.isEmpty then some (some cur) else none
  | o :: rest, cur =>
    if cur.interruptions.isEmpty then some (some cur)
    else
      match o with
      | none => some none
      | some r => approveLoop rest r

/-- The HITL try/catch block of `handleChatRequest`: decides the assistant
reply and performs the pending-state mutations.  Returns `none` when the
unbounded auto-approve loop outruns the modelled trace. -/
def runAgentPhase (oracle : AgentOracle) (st : Store) (now timeout : Nat)
    (session : Session) (message : String) : Option (String × Store) :=
  let isApproval := isApprovalMessage message
  match session.pendingRunState with
  | some _ =>
    if isApproval then
      if !oracle.restoreOk then some (apologyFailure, st)
      else if !oracle.approveOk then some (apologyFailure, st)
      else
        let st1 := (clearPendingRunState st now timeout session.sessionId).2
        match oracle.resumeResult with
        | none => some (apologyFailure, st1)
        | some r => some (jsOrStr r.finalOutput apologyInitial, st1)
    else some (reaskPrompt, st)
  | none =>
    match oracle.firstResult with
    | none => some (apologyFailure, st)
    | some first =>
      if first.interruptions.isEmpty then
        some (jsOrStr first.finalOutput apologyInitial, st)
      else if isApproval then
        match approveLoop oracle.chainResults first with
        | none => none
        | some none => some (apologyFailure, st)
        | some (some finalR) => some (jsOrStr finalR.finalOutput apologyInitial, st)
      else
        let simplified := first.interruptions.map simplifyCall
        let st1 := (setPendingRunState st now timeout session.sessionId
          first.stateStr (some simplified)).2
        some (approvalNeededPrompt, st1)

/-- The `data` object of the chat response (spread-conditional fields). -/
structure ChatData where
  intent : Option Intent
  usage : Option String
  plans : Option (List String)
  recommendation : Option String
  deriving DecidableEq

/-- The outward chat response. -/
structure ChatResponse where
  sessionId : String
  response : String
  phase : Phase
  data : ChatData
  deriving DecidableEq

/-- Errors thrown by `handleChatRequest` before the agent try block. -/
inductive ChatError where
  | missingUserId
  | missingMessage
  | sessionNotFound
  | sessionWrongUser
  | internalError
  deriving DecidableEq

/-- The response construction at the end of `handleChatRequest`: `usage`,
`plans` and `recommendation` are spread in only when truthy / non-empty. -/
def buildResponse (updated : Session) (assistantResponse : String) : ChatResponse :=
  { sessionId := updated.sessionId
    response := assistantResponse
    phase := updated.phase
    data :=
      { intent := if jsTruthyStr updated.intent.destination then some updated.intent else none
        usage := updated.usageData
        plans := if updated.roamingPlans.length > 0 then some updated.roamingPlans else none
        recommendation := updated.recommendation } }

/-- Fetch-or-create of the session at the top of `handleChatRequest`
(`if (sessionId) { ... } else { createSession }`); the returned string is the
map key under which the session lives. -/
def obtainSession (st : Store) (now timeout : Nat) (userId : String)
    (sessionId : Option String) (newSessionId : String) :
    Except ChatError (Session × String × Store) :=
  let sid0 := sessionId.getD ""
  if sid0 = "" then
    match createSession st now timeout newSessionId userId with
    | (st1, sid) =>
      match getSession st1 now sid with
      | (some s, st2) => .ok (s, sid, st2)
      | (none, _) => .error .internalError
  else
    match getSession st now sid0 with
    | (none, _) => .error .sessionNotFound
    | (some s, _) =>
      if s.userId = userId then .ok (s, sid0, st) else .error .sessionWrongUser

/-- Post-reply bookkeeping of `handleChatRequest`: the keyword analysis, the
intent / phase updates, the assistant-message append and the final
`updateSession`, then the response construction. -/
def postProcess (st : Store) (now timeout : Nat) (session : Session)
    (message assistantResponse : String) (localMessages : List Message) :
    Except ChatError (Option (Store × ChatResponse)) :=
  let upd := analyzeAgentResponse assistantResponse session message now
  let st3 :=
    match upd.intent with
    | some iu => (updateIntent st now timeout session.sessionId iu).2
    | none => st
  let st4 :=
    match upd.phase with
    | some p => (transitionPhase st3 now timeout session.sessionId p).2
    | none => st3
  let assistantMsg : Message := { role := .assistant, content := assistantResponse, timestamp := now }
  match updateSession st4 now timeout session.sessionId
      { messages := some (localMessages ++ [assistantMsg]) } with
  | (some updated, st5) => .ok (some (st5, buildResponse updated assistantResponse))
  | (none, _) => .error .internalError

/-- One whole turn of `handleChatRequest({userId, message, sessionId})`.
The user-message push mutates the stored session's `messages` array in place
(the local variable and the map entry alias the same array), modelled by the
raw store write before the agent phase.  `.ok none` marks the one path with no
observable outcome: the unbounded auto-approve loop outrunning the oracle's
trace. -/
def handleChatRequest (oracle : AgentOracle) (st : Store) (now timeout : Nat)
    (userId message : String) (sessionId : Option String) (newSessionId : String) :
    Except ChatError (Option (Store × ChatResponse)) :=
  if userId = "" then .error .missingUserId
  else if strTrim message = "" then .error .missingMessage
  else
    match obtainSession st now timeout userId sessionId newSessionId with
    | .error e => .error e
    | .ok (session, key, st0) =>
      let userMsg : Message := { role := .user, content := message, timestamp := now }
      let localMessages := session.messages ++ [userMsg]
      let st1 := insertKey st0 key { session with messages := localMessages }
      match runAgentPhase oracle st1 now timeout session message with
      | none => .ok none
      | some (assistantResponse, st2) =>
        postProcess st2 now timeout session message assistantResponse localMessages

/-- Projection: the successful outcome of a turn, if any. -/
def turnOk : Except ChatError (Option (Store × ChatResponse)) → Option (Store × ChatResponse)
  | .ok (some p) => some p
  | _ => none

/-- Projection: the reply of a successful turn. -/
def turnReply (r : Except ChatError (Option (Store × ChatResponse))) : Option String :=
  (turnOk r).map fun p => p.2.response

/-- Projection: the session stored under a given key after a successful turn. -/
def turnStoreAt (r : Except ChatError (Option (Store × ChatResponse))) (k : String) :
    Option Session :=
  (turnOk r).bind fun p => lookupKey p.1 k

/-- Projection: the store after a successful turn (defaulting to the input
store, used only to chain a second turn in a statement). -/
def turnStore (r : Except ChatError (Option (Store × ChatResponse))) (d : Store) : Store :=
  ((turnOk r).map fun p => p.1).getD d

/-! ## Proof-support definitions -/

def KeyHolds (st : Store) (now : Nat) (k : String) (cur : Session) : Prop :=
  getSession st now k = (some cur, st)

/-- A session whose agent-data fields still hold their creation values. -/
def Pristine (s : Session) : Prop :=
  s.usageData = none ∧ s.roamingPlans = [] ∧ s.recommendation = none

/-- Every session of the store is pristine. -/
def StorePristine (st : Store) : Prop :=
  ∀ p ∈ st, Pristine p.2

instance (s : Session) : Decidable (Pristine s) := by
  unfold Pristine
  infer_instance

instance (st : Store) : Decidable (StorePristine st) := by
  unfold StorePristine
  infer_instance

/-- The session object holding the in-place user-message push. -/
def pushUserMessage (s : Session) (message : String) (now : Nat) : Session :=
  { s with messages := s.messages ++ [{ role := .user, content := message, timestamp := now }] }

/-! ## Concrete instances used to evaluate the model -/

def c1Session : Session :=
  { freshSession "s1" "u1" 0 1000000 with
    phase := .confirmation
    intent := { destination := some "日本", travelDates := { startDate := none, endDate := none },
                confirmed := false, userApproved := false, detectedAt := some 0,
                confirmedAt := none } }

def c1Oracle : AgentOracle :=
  { restoreOk := true, approveOk := true, resumeResult := none,
    firstResult := some { interruptions := [], finalOutput := some "好的，馬上為您查詢。",
                          stateStr := "" },
    chainResults := [] }

def c1Result : Except ChatError (Option (Store × ChatResponse)) :=
  handleChatRequest c1Oracle [("s1", c1Session)] 1000 1800000 "u1" "好" (some "s1") "ignored"

/-- Final turn observables: the response's phase, and the stored session's
phase, `intent.confirmed` and `intent.userApproved`. -/
def c1Extract : Option (Phase × Phase × Bool × Bool) :=
  match c1Result with
  | .ok (some (st1, resp)) =>
    match lookupKey st1 "s1" with
    | some s1 => some (resp.phase, s1.phase, s1.intent.confirmed, s1.intent.userApproved)
    | none => none
  | _ => none

def c2Session : Session :=
  { freshSession "a1" "u2" 0 1000 with phase := .recommendation }

def c2Store : Store := [("a1", c2Session)]

def c3Session : Session :=
  { freshSession "s3" "u1" 0 1000000 with
    pendingRunState := some "tok"
    pendingInterruptions := [{ name := "query_plans", agentName := "Plan Agent",
                               arguments := "日本", originalPresent := true }] }

def c3Store : Store := [("s3", c3Session)]

def c3Oracle : AgentOracle :=
  { restoreOk := false, approveOk := true, resumeResult := none, firstResult := none,
    chainResults := [] }

def c4Session : Session :=
  { freshSession "s4" "u1" 0 1000000 with
    pendingRunState := some "tok4"
    pendingInterruptions := [{ name := "get_usage", agentName := "Usage Agent",
                               arguments := "", originalPresent := true }] }

def c4Store : Store := [("s4", c4Session)]

def c4Oracle : AgentOracle :=
  { restoreOk := true, approveOk := true, resumeResult := none, firstResult := none,
    chainResults := [] }

def c4Oracle2 : AgentOracle :=
  { restoreOk := false, approveOk := false,
    resumeResult := some { interruptions := [], finalOutput := some "x", stateStr := "y" },
    firstResult := some { interruptions := [], finalOutput := some "z", stateStr := "w" },
    chainResults := [none] }

def c6Store10 : RateStore :=
  (List.range 10).foldl (fun stx _ => (rateLimitStep stx "k" 0).1) []

def c7Session : Session := freshSession "s7" "u7" 0 500

def c7Store : Store := [("s7", c7Session)]

def c8Msgs : List Message :=
  (List.range 22).map (fun i => { role := .user, content := "m", timestamp := i })

def c8Session : Session := freshSession "s8" "u8" 0 500

def c8Store : Store := [("s8", c8Session)]

def c9Session : Session := freshSession "s9" "u9" 0 100

def c9Store : Store := [("s9", c9Session)]

def c10Oracle : AgentOracle :=
  { restoreOk := true, approveOk := true, resumeResult := none,
    firstResult := some { interruptions := [], finalOutput := some "您好！", stateStr := "" },
    chainResults := [] }

def c10Dflt : Store × ChatResponse :=
  ([], { sessionId := "", response := "", phase := .intentDetection,
         data := { intent := none, usage := none, plans := none, recommendation := none } })

def c10Pair : Store × ChatResponse :=
  (turnOk (handleChatRequest c10Oracle [] 0 1000 "u9" "你好" none "ns1")).getD c10Dflt

/-! ## Association-list lemmas -/

theorem lookupKey_insertKey_self {α : Type} (st : List (String × α)) (k : String) (v : α) :
    lookupKey (insertKey st k v) k = some v := by
  induction st with
  | nil => simp [insertKey, lookupKey]
  | cons p rest ih =>
    by_cases h : p.1 = k
    · simp [insertKey, h, lookupKey]
    · simp [insertKey, h, lookupKey, ih]

theorem mem_insertKey {α : Type} {st : List (String × α)} {k : String} {v : α}
    {p : String × α} (h : p ∈ insertKey st k v) : p = (k, v) ∨ p ∈ st := by
  induction st with
  | nil =>
    simp [insertKey] at h
    exact Or.inl h
  | cons q rest ih =>
    by_cases hq : q.1 = k
    · simp only [insertKey, hq, if_pos] at h
      rcases List.mem_cons.mp h with h1 | h1
      · exact Or.inl h1
      · exact Or.inr (List.mem_cons_of_mem _ h1)
    · simp only [insertKey, hq, if_neg, not_false_iff] at h
      rcases List.mem_cons.mp h with h1 | h1
      · exact Or.inr (h1 ▸ List.mem_cons_self _ _)
      · rcases ih h1 with h2 | h2
        · exact Or.inl h2
        · exact Or.inr (List.mem_cons_of_mem _ h2)

theorem mem_removeKey {α : Type} {st : List (String × α)} {k : String}
    {p : String × α} (h : p ∈ removeKey st k) : p ∈ st := by
  induction st with
  | nil => simp [removeKey] at h
  | cons q rest ih =>
    by_cases hq : q.1 = k
    · simp only [removeKey, hq, if_pos] at h
      exact List.mem_cons_of_mem _ h
    · simp only [removeKey, hq, if_neg, not_false_iff] at h
      rcases List.mem_cons.mp h with h1 | h1
      · exact h1 ▸ List.mem_cons_self _ _
      · exact List.mem_cons_of_mem _ (ih h1)

theorem lookupKey_mem {α : Type} {st : List (String × α)} {k : String} {v : α}
    (h : lookupKey st k = some v) : (k, v) ∈ st := by
  induction st with
  | nil => simp [lookupKey] at h
  | cons q rest ih =>
    by_cases hq : q.1 = k
    · rcases q with ⟨k0, v0⟩
      simp only at hq
      subst hq
      simp [lookupKey] at h
      simp [h]
    · rcases q with ⟨k0, v0⟩
      simp only at hq
      simp only [lookupKey, if_neg hq] at h
      exact List.mem_cons_of_mem _ (ih h)

theorem lookupKey_removeKey_of_nodup {α : Type} {st : List (String × α)} {k : String}
    (hnd : (st.map Prod.fst).Nodup) : lookupKey (removeKey st k) k = none := by
  induction st with
  | nil => simp [removeKey, lookupKey]
  | cons q rest ih =>
    rcases q with ⟨k0, v0⟩
    simp only [List.map_cons, List.nodup_cons] at hnd
    by_cases hq : k0 = k
    · subst hq
      simp only [removeKey, if_pos rfl]
      cases hlk : lookupKey rest k0 with
      | none => exact hlk
      | some w => exact absurd (List.mem_map_of_mem Prod.fst (lookupKey_mem hlk)) hnd.1
    · simp only [removeKey, if_neg hq, lookupKey, if_neg hq]
      exact ih hnd.2

/-! ## Session store lemmas -/

theorem getSession_found (st : Store) (now : Nat) (sid : String) (s : Session)
    (hsid : sid ≠ "") (hfind : lookupKey st sid = some s) (hexp : now ≤ s.expiresAt) :
    getSession st now sid = (some s, st) := by
  simp [getSession, hsid, hfind, Nat.not_lt.mpr hexp]

theorem getSession_some_elim {st : Store} {now : Nat} {sid : String} {s : Session}
    (h : (getSession st now sid).1 = some s) :
    sid ≠ "" ∧ lookupKey st sid = some s ∧ now ≤ s.expiresAt ∧
      getSession st now sid = (some s, st) := by
  by_cases hsid : sid = ""
  · simp [getSession, hsid] at h
  · cases hlk : lookupKey st sid with
    | none => simp [getSession, hsid, hlk] at h
    | some t =>
      by_cases hexp : now > t.expiresAt
      · simp [getSession, hsid, hlk, hexp] at h
      · have ht : t = s := by simpa [getSession, hsid, hlk, hexp] using h
        subst ht
        exact ⟨hsid, rfl, Nat.not_lt.mp hexp, by simp [getSession, hsid, hlk, hexp]⟩

theorem updateSession_found (st : Store) (now timeout : Nat) (sid : String) (u : Updates)
    (s : Session) (h : getSession st now sid = (some s, st)) :
    updateSession st now timeout sid u =
      (some (applyUpdates s u now timeout), insertKey st sid (applyUpdates s u now timeout)) := by
  simp [updateSession, h]

theorem updateIntent_found (st : Store) (now timeout : Nat) (sid : String) (iu : IntentUpdates)
    (s : Session) (h : getSession st now sid = (some s, st)) :
    updateIntent st now timeout sid iu =
      updateSession st now timeout sid { intent := some (mergeIntent s.intent iu) } := by
  simp [updateIntent, h]

theorem transitionPhase_found (st : Store) (now timeout : Nat) (sid : String) (p : Phase)
    (s : Session) (h : getSession st now sid = (some s, st)) :
    transitionPhase st now timeout sid p =
      (if p ∈ validTransitions s.phase then
        updateSession st now timeout sid { phase := some p }
      else (some s, st)) := by
  simp [transitionPhase, h]

/-! ## Step lemmas chaining the per-turn store mutations

`KeyHolds st now k cur` says the store holds `cur` under key `k` and a read at
instant `now` returns it unchanged (as every read inside one turn does). -/

theorem keyHolds_of_insert {st : Store} {now : Nat} {k : String} {cur : Session}
    (hsid : k ≠ "") (hexp : now ≤ cur.expiresAt) :
    KeyHolds (insertKey st k cur) now k cur :=
  getSession_found _ now k cur hsid (lookupKey_insertKey_self st k cur) hexp

theorem keyHolds_ne_empty {st : Store} {now : Nat} {k : String} {cur : Session}
    (h : KeyHolds st now k cur) : k ≠ "" :=
  (getSession_some_elim (by rw [h])).1

theorem updateSession_step {st : Store} {now : Nat} {k : String} {cur : Session}
    (timeout : Nat) (u : Updates) (h : KeyHolds st now k cur) :
    updateSession st now timeout k u =
      (some (applyUpdates cur u now timeout),
       insertKey st k (applyUpdates cur u now timeout)) ∧
    KeyHolds (insertKey st k (applyUpdates cur u now timeout)) now k
      (applyUpdates cur u now timeout) := by
  refine ⟨updateSession_found st now timeout k u cur h, ?_⟩
  exact keyHolds_of_insert (keyHolds_ne_empty h) (by simp [applyUpdates, Nat.le_add_right])

theorem applyUpdates_core (cur : Session) (u : Updates) (now timeout : Nat) :
    (applyUpdates cur u now timeout).sessionId = cur.sessionId ∧
    (applyUpdates cur u now timeout).userId = cur.userId ∧
    (applyUpdates cur u now timeout).usageData = cur.usageData ∧
    (applyUpdates cur u now timeout).roamingPlans = cur.roamingPlans ∧
    (applyUpdates cur u now timeout).recommendation = cur.recommendation ∧
    (applyUpdates cur u now timeout).expiresAt = now + timeout := by
  simp [applyUpdates]

theorem updateIntent_pending_step {st : Store} {now timeout : Nat} {k : String} {cur : Session}
    (iu : IntentUpdates) (h : KeyHolds st now k cur) :
    ∃ cur1, KeyHolds (updateIntent st now timeout k iu).2 now k cur1 ∧
      cur1.pendingRunState = cur.pendingRunState ∧
      cur1.pendingInterruptions = cur.pendingInterruptions ∧
      cur1.sessionId = cur.sessionId ∧ cur1.userId = cur.userId := by
  have hu := updateSession_step timeout { intent := some (mergeIntent cur.intent iu) } h
  refine ⟨applyUpdates cur { intent := some (mergeIntent cur.intent iu) } now timeout, ?_, ?_, ?_, ?_, ?_⟩
  · rw [updateIntent_found st now timeout k iu cur h, hu.1]
    exact hu.2
  · simp [applyUpdates]
  · simp [applyUpdates]
  · simp [applyUpdates]
  · simp [applyUpdates]

theorem transitionPhase_pending_step {st : Store} {now timeout : Nat} {k : String}
    {cur : Session} (p : Phase) (h : KeyHolds st now k cur) :
    ∃ cur1, KeyHolds (transitionPhase st now timeout k p).2 now k cur1 ∧
      cur1.pendingRunState = cur.pendingRunState ∧
      cur1.pendingInterruptions = cur.pendingInterruptions ∧
      cur1.sessionId = cur.sessionId ∧ cur1.userId = cur.userId := by
  rw [transitionPhase_found st now timeout k p cur h]
  by_cases hp : p ∈ validTransitions cur.phase
  · rw [if_pos hp]
    have hu := updateSession_step timeout { phase := some p } h
    refine ⟨applyUpdates cur { phase := some p } now timeout, ?_, ?_, ?_, ?_, ?_⟩
    · rw [hu.1]
      exact hu.2
    · simp [applyUpdates]
    · simp [applyUpdates]
    · simp [applyUpdates]
    · simp [applyUpdates]
  · rw [if_neg hp]
    exact ⟨cur, h, rfl, rfl, rfl, rfl⟩

theorem postProcess_spec (st : Store) (now timeout : Nat) (session : Session)
    (message assistantResponse : String) (localMessages : List Message) (cur : Session)
    (h : KeyHolds st now session.sessionId cur) :
    ∃ st5 updated,
      postProcess st now timeout session message assistantResponse localMessages
        = .ok (some (st5, buildResponse updated assistantResponse)) ∧
      lookupKey st5 session.sessionId = some updated ∧
      updated.pendingRunState = cur.pendingRunState ∧
      updated.pendingInterruptions = cur.pendingInterruptions ∧
      updated.sessionId = cur.sessionId ∧
      updated.userId = cur.userId ∧
      updated.expiresAt = now + timeout := by
  unfold postProcess
  rcases hint :
      (analyzeAgentResponse assistantResponse session message now).intent with _ | iu <;>
    rcases hph :
      (analyzeAgentResponse assistantResponse session message now).phase with _ | p
  all_goals {
    simp only [hint, hph]
    first
    | (obtain ⟨cur3, h3, e3a, e3b, e3c, e3d⟩ := updateIntent_pending_step iu h
       obtain ⟨cur4, h4, e4a, e4b, e4c, e4d⟩ := transitionPhase_pending_step p h3
       have hu := updateSession_step timeout
         { messages := some (localMessages ++
             [{ role := .assistant, content := assistantResponse, timestamp := now }]) } h4
       rw [hu.1]
       refine ⟨_, _, rfl, ?_, ?_, ?_, ?_, ?_⟩ <;>
         simp [applyUpdates, e3a, e3b, e3c, e3d, e4a, e4b, e4c, e4d,
           lookupKey_insertKey_self])
    | (obtain ⟨cur3, h3, e3a, e3b, e3c, e3d⟩ := updateIntent_pending_step iu h
       have hu := updateSession_step timeout
         { messages := some (localMessages ++
             [{ role := .assistant, content := assistantResponse, timestamp := now }]) } h3
       rw [hu.1]
       refine ⟨_, _, rfl, ?_, ?_, ?_, ?_, ?_⟩ <;>
         simp [applyUpdates, e3a, e3b, e3c, e3d, lookupKey_insertKey_self])
    | (obtain ⟨cur4, h4, e4a, e4b, e4c, e4d⟩ := transitionPhase_pending_step p h
       have hu := updateSession_step timeout
         { messages := some (localMessages ++
             [{ role := .assistant, content := assistantResponse, timestamp := now }]) } h4
       rw [hu.1]
       refine ⟨_, _, rfl, ?_, ?_, ?_, ?_, ?_⟩ <;>
         simp [applyUpdates, e4a, e4b, e4c, e4d, lookupKey_insertKey_self])
    | (have hu := updateSession_step timeout
         { messages := some (localMessages ++
             [{ role := .assistant, content := assistantResponse, timestamp := now }]) } h
       rw [hu.1]
       refine ⟨_, _, rfl, ?_, ?_, ?_, ?_, ?_⟩ <;>
         simp [applyUpdates, lookupKey_insertKey_self])
  }

/-! ## Pristine-field invariant: `usageData`, `roamingPlans`, `recommendation`
are never assigned after creation -/

theorem pristine_freshSession (sessionId userId : String) (now timeout : Nat) :
    Pristine (freshSession sessionId userId now timeout) :=
  ⟨rfl, rfl, rfl⟩

theorem pristine_applyUpdates {s : Session} (u : Updates) (now timeout : Nat)
    (h : Pristine s) : Pristine (applyUpdates s u now timeout) := by
  obtain ⟨h1, h2, h3⟩ := h
  exact ⟨by simp [applyUpdates, h1], by simp [applyUpdates, h2], by simp [applyUpdates, h3]⟩

theorem storePristine_insertKey {st : Store} {k : String} {s : Session}
    (hst : StorePristine st) (hs : Pristine s) : StorePristine (insertKey st k s) := by
  intro p hp
  rcases mem_insertKey hp with h | h
  · rw [h]
    exact hs
  · exact hst p h

theorem storePristine_removeKey {st : Store} (k : String)
    (hst : StorePristine st) : StorePristine (removeKey st k) :=
  fun p hp => hst p (mem_removeKey hp)

theorem pristine_of_lookup {st : Store} {k : String} {s : Session}
    (hst : StorePristine st) (h : lookupKey st k = some s) : Pristine s :=
  hst (k, s) (lookupKey_mem h)

theorem getSession_pristine {st : Store} (now : Nat) (sid : String)
    (hst : StorePristine st) :
    StorePristine (getSession st now sid).2 ∧
    ∀ s, (getSession st now sid).1 = some s → Pristine s := by
  by_cases hsid : sid = ""
  · simp only [getSession, if_pos hsid]
    exact ⟨hst, by simp⟩
  · cases hlk : lookupKey st sid with
    | none =>
      simp only [getSession, if_neg hsid, hlk]
      exact ⟨hst, by simp⟩
    | some t =>
      by_cases hexp : now > t.expiresAt
      · simp only [getSession, if_neg hsid, hlk, if_pos hexp]
        exact ⟨storePristine_removeKey sid hst, by simp⟩
      · simp only [getSession, if_neg hsid, hlk, if_neg hexp]
        refine ⟨hst, ?_⟩
        intro s hs
        have : t = s := by simpa using hs
        exact this ▸ pristine_of_lookup hst hlk

theorem updateSession_pristine {st : Store} (now timeout : Nat) (sid : String) (u : Updates)
    (hst : StorePristine st) :
    StorePristine (updateSession st now timeout sid u).2 ∧
    ∀ s1, (updateSession st now timeout sid u).1 = some s1 → Pristine s1 := by
  unfold updateSession
  have hg := getSession_pristine now sid hst
  rcases hgs : getSession st now sid with ⟨o, st1⟩
  rw [hgs] at hg
  cases o with
  | none => exact ⟨hg.1, by simp⟩
  | some s =>
    have hps : Pristine s := hg.2 s rfl
    refine ⟨storePristine_insertKey hg.1 (pristine_applyUpdates u now timeout hps), ?_⟩
    intro s1 hs1
    have : applyUpdates s u now timeout = s1 := by simpa using hs1
    exact this ▸ pristine_applyUpdates u now timeout hps

theorem updateIntent_pristine {st : Store} (now timeout : Nat) (sid : String)
    (iu : IntentUpdates) (hst : StorePristine st) :
    StorePristine (updateIntent st now timeout sid iu).2 := by
  unfold updateIntent
  have hg := getSession_pristine now sid hst
  rcases hgs : getSession st now sid with ⟨o, st1⟩
  rw [hgs] at hg
  cases o with
  | none => exact hg.1
  | some s => exact (updateSession_pristine now timeout sid _ hg.1).1

theorem transitionPhase_pristine {st : Store} (now timeout : Nat) (sid : String)
    (p : Phase) (hst : StorePristine st) :
    StorePristine (transitionPhase st now timeout sid p).2 := by
  unfold transitionPhase
  have hg := getSession_pristine now sid hst
  rcases hgs : getSession st now sid with ⟨o, st1⟩
  rw [hgs] at hg
  cases o with
  | none => exact hg.1
  | some s =>
    by_cases hp : p ∈ validTransitions s.phase
    · simp only [if_pos hp]
      exact (updateSession_pristine now timeout sid _ hg.1).1
    · simp only [if_neg hp]
      exact hg.1

theorem runAgentPhase_pristine {oracle : AgentOracle} {st : Store} {now timeout : Nat}
    {session : Session} {message : String} {reply : String} {st2 : Store}
    (hst : StorePristine st)
    (h : runAgentPhase oracle st now timeout session message = some (reply, st2)) :
    StorePristine st2 := by
  have hclear : StorePristine (clearPendingRunState st now timeout session.sessionId).2 :=
    (updateSession_pristine now timeout session.sessionId _ hst).1
  have hset : ∀ ss ints, StorePristine
      (setPendingRunState st now timeout session.sessionId ss ints).2 :=
    fun ss ints => (updateSession_pristine now timeout session.sessionId _ hst).1
  cases hps : session.pendingRunState with
  | some ps =>
    by_cases happ : isApprovalMessage message
    · by_cases hro : oracle.restoreOk = true
      · by_cases hao : oracle.approveOk = true
        · cases hrr : oracle.resumeResult with
          | none =>
            simp [runAgentPhase, hps, happ, hro, hao, hrr] at h
            exact h.2 ▸ hclear
          | some r =>
            simp [runAgentPhase, hps, happ, hro, hao, hrr] at h
            exact h.2 ▸ hclear
        · simp [runAgentPhase, hps, happ, hro, Bool.eq_false_iff.mpr hao] at h
          exact h.2 ▸ hst
      · simp [runAgentPhase, hps, happ, Bool.eq_false_iff.mpr hro] at h
        exact h.2 ▸ hst
    · simp [runAgentPhase, hps, happ] at h
      exact h.2 ▸ hst
  | none =>
    cases hfr : oracle.firstResult with
    | none =>
      simp [runAgentPhase, hps, hfr] at h
      exact h.2 ▸ hst
    | some first =>
      by_cases hemp : first.interruptions.isEmpty = true
      · simp [runAgentPhase, hps, hfr, hemp] at h
        exact h.2 ▸ hst
      · by_cases happ : isApprovalMessage message
        · cases hloop : approveLoop oracle.chainResults first with
          | none => simp [runAgentPhase, hps, hfr, hemp, happ, hloop] at h
          | some fr =>
            cases fr with
            | none =>
              simp [runAgentPhase, hps, hfr, hemp, happ, hloop] at h
              exact h.2 ▸ hst
            | some finalR =>
              simp [runAgentPhase, hps, hfr, hemp, happ, hloop] at h
              exact h.2 ▸ hst
        · simp [runAgentPhase, hps, hfr, hemp, happ] at h
          exact h.2 ▸ hset first.stateStr (some (first.interruptions.map simplifyCall))

/-! ## Behaviour of the HITL block on a suspended session -/

theorem runAgentPhase_nonapproval (oracle : AgentOracle) (st : Store) (now timeout : Nat)
    (session : Session) (message : String) (ps : String)
    (hps : session.pendingRunState = some ps) (happ : isApprovalMessage message = false) :
    runAgentPhase oracle st now timeout session message = some (reaskPrompt, st) := by
  simp [runAgentPhase, hps, happ]

theorem runAgentPhase_resume_beforeClear (oracle : AgentOracle) (st : Store)
    (now timeout : Nat) (session : Session) (message : String) (ps : String)
    (hps : session.pendingRunState = some ps) (happ : isApprovalMessage message = true)
    (hfail : (oracle.restoreOk && oracle.approveOk) = false) :
    runAgentPhase oracle st now timeout session message = some (apologyFailure, st) := by
  rcases Bool.and_eq_false_iff.mp hfail with hro | hao
  · simp [runAgentPhase, hps, happ, hro]
  · by_cases hro : oracle.restoreOk = true
    · simp [runAgentPhase, hps, happ, hro, hao]
    · simp [runAgentPhase, hps, happ, Bool.eq_false_iff.mpr hro]

theorem runAgentPhase_resume_started (oracle : AgentOracle) (st : Store)
    (now timeout : Nat) (session : Session) (message : String) (ps : String)
    (hps : session.pendingRunState = some ps) (happ : isApprovalMessage message = true)
    (hok : (oracle.restoreOk && oracle.approveOk) = true) :
    runAgentPhase oracle st now timeout session message =
      some ((match oracle.resumeResult with
             | none => apologyFailure
             | some r => jsOrStr r.finalOutput apologyInitial),
            (clearPendingRunState st now timeout session.sessionId).2) := by
  rcases Bool.and_eq_true_iff.mp hok with ⟨hro, hao⟩
  cases hrr : oracle.resumeResult with
  | none => simp [runAgentPhase, hps, happ, hro, hao, hrr]
  | some r => simp [runAgentPhase, hps, happ, hro, hao, hrr]

theorem clearPendingRunState_step {st : Store} {now : Nat} {k : String} {cur : Session}
    (timeout : Nat) (h : KeyHolds st now k cur) :
    ∃ cur1, KeyHolds (clearPendingRunState st now timeout k).2 now k cur1 ∧
      cur1.pendingRunState = none ∧ cur1.pendingInterruptions = [] ∧
      cur1.sessionId = cur.sessionId ∧ cur1.userId = cur.userId := by
  have hu := updateSession_step timeout
    { pendingRunState := some none, pendingInterruptions := some [] } h
  unfold clearPendingRunState
  rw [hu.1]
  exact ⟨_, hu.2, by simp [applyUpdates], by simp [applyUpdates],
    by simp [applyUpdates], by simp [applyUpdates]⟩

/-! ## Entry of the turn -/

theorem obtainSession_existing (st : Store) (now timeout : Nat) (userId : String)
    (sid nsid : String) (s : Session)
    (hsid : sid ≠ "") (hfind : lookupKey st sid = some s) (hexp : now ≤ s.expiresAt)
    (huser : s.userId = userId) :
    obtainSession st now timeout userId (some sid) nsid = .ok (s, sid, st) := by
  simp [obtainSession, hsid, getSession_found st now sid s hsid hfind hexp, huser]

theorem handle_pending_nonapproval_eq (oracle : AgentOracle) (st : Store)
    (now timeout : Nat) (userId message sid nsid ps : String) (s : Session)
    (hsid : sid ≠ "") (hfind : lookupKey st sid = some s) (hexp : now ≤ s.expiresAt)
    (huser : s.userId = userId) (huid : userId ≠ "") (hmsg : strTrim message ≠ "")
    (hps : s.pendingRunState = some ps) (happ : isApprovalMessage message = false) :
    handleChatRequest oracle st now timeout userId message (some sid) nsid
      = postProcess (insertKey st sid (pushUserMessage s message now)) now timeout s message
          reaskPrompt
          (s.messages ++ [{ role := .user, content := message, timestamp := now }]) := by
  unfold handleChatRequest
  rw [if_neg huid, if_neg hmsg,
    obtainSession_existing st now timeout userId sid nsid s hsid hfind hexp huser]
  dsimp only
  rw [runAgentPhase_nonapproval oracle _ now timeout s message ps hps happ]
  rfl

theorem handle_pending_nonapproval (oracle : AgentOracle) (st : Store)
    (now timeout : Nat) (userId message sid nsid ps : String) (s : Session)
    (hsid : sid ≠ "") (hfind : lookupKey st sid = some s) (hexp : now ≤ s.expiresAt)
    (hkey : s.sessionId = sid)
    (huser : s.userId = userId) (huid : userId ≠ "") (hmsg : strTrim message ≠ "")
    (hps : s.pendingRunState = some ps) (happ : isApprovalMessage message = false) :
    ∃ st5 updated,
      handleChatRequest oracle st now timeout userId message (some sid) nsid
        = .ok (some (st5, buildResponse updated reaskPrompt)) ∧
      lookupKey st5 sid = some updated ∧
      updated.pendingRunState = some ps ∧
      updated.pendingInterruptions = s.pendingInterruptions ∧
      updated.sessionId = sid ∧ updated.userId = userId ∧
      updated.expiresAt = now + timeout := by
  have hmain := handle_pending_nonapproval_eq oracle st now timeout userId message sid nsid
    ps s hsid hfind hexp huser huid hmsg hps happ
  have hpushKH : KeyHolds (insertKey st sid (pushUserMessage s message now)) now
      s.sessionId (pushUserMessage s message now) := by
    rw [hkey]
    exact keyHolds_of_insert hsid (by simpa [pushUserMessage] using hexp)
  obtain ⟨st5, updated, heq, hlk, e1, e2, e3, e4, e5⟩ :=
    postProcess_spec (insertKey st sid (pushUserMessage s message now)) now timeout s message
      reaskPrompt (s.messages ++ [{ role := .user, content := message, timestamp := now }])
      (pushUserMessage s message now) hpushKH
  refine ⟨st5, updated, ?_, ?_, ?_, ?_, ?_, ?_, e5⟩
  · rw [hmain]
    exact heq
  · rw [← hkey]
    exact hlk
  · rw [e1]
    simpa [pushUserMessage] using hps
  · rw [e2]
    simp [pushUserMessage]
  · rw [e3]
    simpa [pushUserMessage] using hkey
  · rw [e4]
    simpa [pushUserMessage] using huser

theorem handle_resume (oracle : AgentOracle) (st : Store)
    (now timeout : Nat) (userId message sid nsid ps : String) (s : Session)
    (hsid : sid ≠ "") (hfind : lookupKey st sid = some s) (hexp : now ≤ s.expiresAt)
    (hkey : s.sessionId = sid)
    (huser : s.userId = userId) (huid : userId ≠ "") (hmsg : strTrim message ≠ "")
    (hps : s.pendingRunState = some ps) (happ : isApprovalMessage message = true) :
    ∃ st5 updated reply,
      handleChatRequest oracle st now timeout userId message (some sid) nsid
        = .ok (some (st5, buildResponse updated reply)) ∧
      lookupKey st5 sid = some updated ∧
      ((oracle.restoreOk && oracle.approveOk) = true →
        updated.pendingRunState = none ∧ updated.pendingInterruptions = []) ∧
      ((oracle.restoreOk && oracle.approveOk) = false →
        updated.pendingRunState = some ps ∧
        updated.pendingInterruptions = s.pendingInterruptions) := by
  have hpushKH : KeyHolds (insertKey st sid (pushUserMessage s message now)) now
      s.sessionId (pushUserMessage s message now) := by
    rw [hkey]
    exact keyHolds_of_insert hsid (by simpa [pushUserMessage] using hexp)
  cases hok : (oracle.restoreOk && oracle.approveOk) with
  | false =>
    have hmain : handleChatRequest oracle st now timeout userId message (some sid) nsid
        = postProcess (insertKey st sid (pushUserMessage s message now)) now timeout s message
            apologyFailure
            (s.messages ++ [{ role := .user, content := message, timestamp := now }]) := by
      unfold handleChatRequest
      rw [if_neg huid, if_neg hmsg,
        obtainSession_existing st now timeout userId sid nsid s hsid hfind hexp huser]
      dsimp only
      rw [runAgentPhase_resume_beforeClear oracle _ now timeout s message ps hps happ hok]
      rfl
    obtain ⟨st5, updated, heq, hlk, e1, e2, e3, e4, e5⟩ :=
      postProcess_spec (insertKey st sid (pushUserMessage s message now)) now timeout s message
        apologyFailure (s.messages ++ [{ role := .user, content := message, timestamp := now }])
        (pushUserMessage s message now) hpushKH
    refine ⟨st5, updated, apologyFailure, ?_, ?_, by simp, ?_⟩
    · rw [hmain]
      exact heq
    · rw [← hkey]
      exact hlk
    · intro _
      constructor
      · rw [e1]
        simpa [pushUserMessage] using hps
      · rw [e2]
        simp [pushUserMessage]
  | true =>
    obtain ⟨cur1, hKH1, f1, f2, f3, f4⟩ :=
      clearPendingRunState_step timeout hpushKH
    have hmain : handleChatRequest oracle st now timeout userId message (some sid) nsid
        = postProcess (clearPendingRunState
              (insertKey st sid (pushUserMessage s message now)) now timeout s.sessionId).2
            now timeout s message
            (match oracle.resumeResult with
             | none => apologyFailure
             | some r => jsOrStr r.finalOutput apologyInitial)
            (s.messages ++ [{ role := .user, content := message, timestamp := now }]) := by
      unfold handleChatRequest
      rw [if_neg huid, if_neg hmsg,
        obtainSession_existing st now timeout userId sid nsid s hsid hfind hexp huser]
      dsimp only
      rw [runAgentPhase_resume_started oracle _ now timeout s message ps hps happ hok]
      rfl
    obtain ⟨st5, updated, heq, hlk, e1, e2, e3, e4, e5⟩ :=
      postProcess_spec _ now timeout s message
        (match oracle.resumeResult with
         | none => apologyFailure
         | some r => jsOrStr r.finalOutput apologyInitial)
        (s.messages ++ [{ role := .user, content := message, timestamp := now }])
        cur1 hKH1
    refine ⟨st5, updated,
      (match oracle.resumeResult with
       | none => apologyFailure
       | some r => jsOrStr r.finalOutput apologyInitial), ?_, ?_, ?_, by simp⟩
    · rw [hmain]
      exact heq
    · rw [← hkey]
      exact hlk
    · intro _
      exact ⟨e1.trans f1, e2.trans f2⟩

/-! ## Pristine fields through a whole turn -/

theorem pristine_pushUserMessage {s : Session} (message : String) (now : Nat)
    (h : Pristine s) : Pristine (pushUserMessage s message now) := by
  obtain ⟨h1, h2, h3⟩ := h
  exact ⟨by simp [pushUserMessage, h1], by simp [pushUserMessage, h2],
    by simp [pushUserMessage, h3]⟩

theorem updateSessionFinal_pristine {st4 : Store} {now timeout : Nat} {k : String}
    {u : Updates} {o : Option Session} {stx : Store}
    (hst4 : StorePristine st4)
    (hupd : updateSession st4 now timeout k u = (o, stx)) :
    StorePristine stx ∧ ∀ s1, o = some s1 → Pristine s1 := by
  have hpq := updateSession_pristine now timeout k u hst4
  rw [hupd] at hpq
  exact hpq

theorem buildResponse_pristine {updated : Session} (resp : String)
    (h : Pristine updated) :
    (buildResponse updated resp).data.usage = none ∧
    (buildResponse updated resp).data.plans = none ∧
    (buildResponse updated resp).data.recommendation = none := by
  obtain ⟨h1, h2, h3⟩ := h
  exact ⟨by simp [buildResponse, h1], by simp [buildResponse, h2], by simp [buildResponse, h3]⟩

theorem postProcess_pristine {st : Store} {now timeout : Nat} {session : Session}
    {message resp : String} {localMessages : List Message} {st5 : Store} {r : ChatResponse}
    (hst : StorePristine st)
    (h : postProcess st now timeout session message resp localMessages = .ok (some (st5, r))) :
    StorePristine st5 ∧ r.data.usage = none ∧ r.data.plans = none ∧
      r.data.recommendation = none := by
  unfold postProcess at h
  rcases hint : (analyzeAgentResponse resp session message now).intent with _ | iu <;>
    rcases hph : (analyzeAgentResponse resp session message now).phase with _ | p <;>
      simp only [hint, hph] at h
  case none.none =>
    rcases hupd : updateSession st now timeout session.sessionId
        { messages := some (localMessages ++
            [{ role := Role.assistant, content := resp, timestamp := now }]) } with ⟨o, stx⟩
    rw [hupd] at h
    have hfin := updateSessionFinal_pristine hst hupd
    cases o with
    | none => simp at h
    | some updated =>
      simp only [Except.ok.injEq, Option.some.injEq, Prod.mk.injEq] at h
      obtain ⟨h5, hr⟩ := h
      refine ⟨h5 ▸ hfin.1, ?_, ?_, ?_⟩ <;>
        { rw [← hr]
          have hb := buildResponse_pristine resp (hfin.2 updated rfl)
          first
          | exact hb.1
          | exact hb.2.1
          | exact hb.2.2 }
  case none.some =>
    have hp4 : StorePristine (transitionPhase st now timeout session.sessionId p).2 :=
      transitionPhase_pristine now timeout session.sessionId p hst
    rcases hupd : updateSession (transitionPhase st now timeout session.sessionId p).2
        now timeout session.sessionId
        { messages := some (localMessages ++
            [{ role := Role.assistant, content := resp, timestamp := now }]) } with ⟨o, stx⟩
    rw [hupd] at h
    have hfin := updateSessionFinal_pristine hp4 hupd
    cases o with
    | none => simp at h
    | some updated =>
      simp only [Except.ok.injEq, Option.some.injEq, Prod.mk.injEq] at h
      obtain ⟨h5, hr⟩ := h
      refine ⟨h5 ▸ hfin.1, ?_, ?_, ?_⟩ <;>
        { rw [← hr]
          have hb := buildResponse_pristine resp (hfin.2 updated rfl)
          first
          | exact hb.1
          | exact hb.2.1
          | exact hb.2.2 }
  case some.none =>
    have hp3 : StorePristine (updateIntent st now timeout session.sessionId iu).2 :=
      updateIntent_pristine now timeout session.sessionId iu hst
    rcases hupd : updateSession (updateIntent st now timeout session.sessionId iu).2
        now timeout session.sessionId
        { messages := some (localMessages ++
            [{ role := Role.assistant, content := resp, timestamp := now }]) } with ⟨o, stx⟩
    rw [hupd] at h
    have hfin := updateSessionFinal_pristine hp3 hupd
    cases o with
    | none => simp at h
    | some updated =>
      simp only [Except.ok.injEq, Option.some.injEq, Prod.mk.injEq] at h
      obtain ⟨h5, hr⟩ := h
      refine ⟨h5 ▸ hfin.1, ?_, ?_, ?_⟩ <;>
        { rw [← hr]
          have hb := buildResponse_pristine resp (hfin.2 updated rfl)
          first
          | exact hb.1
          | exact hb.2.1
          | exact hb.2.2 }
  case some.some =>
    have hp4 : StorePristine (transitionPhase
        (updateIntent st now timeout session.sessionId iu).2 now timeout session.sessionId p).2 :=
      transitionPhase_pristine now timeout session.sessionId p
        (updateIntent_pristine now timeout session.sessionId iu hst)
    rcases hupd : updateSession (transitionPhase
        (updateIntent st now timeout session.sessionId iu).2 now timeout session.sessionId p).2
        now timeout session.sessionId
        { messages := some (localMessages ++
            [{ role := Role.assistant, content := resp, timestamp := now }]) } with ⟨o, stx⟩
    rw [hupd] at h
    have hfin := updateSessionFinal_pristine hp4 hupd
    cases o with
    | none => simp at h
    | some updated =>
      simp only [Except.ok.injEq, Option.some.injEq, Prod.mk.injEq] at h
      obtain ⟨h5, hr⟩ := h
      refine ⟨h5 ▸ hfin.1, ?_, ?_, ?_⟩ <;>
        { rw [← hr]
          have hb := buildResponse_pristine resp (hfin.2 updated rfl)
          first
          | exact hb.1
          | exact hb.2.1
          | exact hb.2.2 }

theorem obtainSession_pristine {st : Store} {now timeout : Nat} {userId : String}
    {sessionId : Option String} {nsid : String} {session : Session} {key : String}
    {st0 : Store} (hst : StorePristine st)
    (h : obtainSession st now timeout userId sessionId nsid = .ok (session, key, st0)) :
    StorePristine st0 ∧ Pristine session := by
  unfold obtainSession at h
  by_cases hs0 : sessionId.getD "" = ""
  · rw [if_pos hs0] at h
    dsimp only [createSession] at h
    have hst1 : StorePristine (insertKey st nsid (freshSession nsid userId now timeout)) :=
      storePristine_insertKey hst (pristine_freshSession nsid userId now timeout)
    have hg := getSession_pristine now nsid hst1
    rcases hget : getSession (insertKey st nsid (freshSession nsid userId now timeout))
        now nsid with ⟨o, st2⟩
    rw [hget] at h hg
    cases o with
    | none => simp at h
    | some s =>
      simp only [Except.ok.injEq, Prod.mk.injEq] at h
      obtain ⟨hs, _, hst0⟩ := h
      exact ⟨hst0 ▸ hg.1, hs ▸ hg.2 s rfl⟩
  · rw [if_neg hs0] at h
    have hg := getSession_pristine now (sessionId.getD "") hst
    rcases hget : getSession st now (sessionId.getD "") with ⟨o, st2⟩
    rw [hget] at h hg
    cases o with
    | none => simp at h
    | some s =>
      by_cases hu : s.userId = userId
      · simp only [hu, if_pos, Except.ok.injEq, Prod.mk.injEq] at h
        obtain ⟨hs, _, hst0⟩ := h
        exact ⟨hst0 ▸ hst, hs ▸ hg.2 s rfl⟩
      · simp [hu] at h

theorem handleChatRequest_pristine {oracle : AgentOracle} {st : Store} {now timeout : Nat}
    {userId message : String} {sessionId : Option String} {nsid : String}
    {stR : Store} {resp : ChatResponse}
    (hst : StorePristine st)
    (h : handleChatRequest oracle st now timeout userId message sessionId nsid
      = .ok (some (stR, resp))) :
    StorePristine stR ∧ resp.data.usage = none ∧ resp.data.plans = none ∧
      resp.data.recommendation = none := by
  unfold handleChatRequest at h
  by_cases huid : userId = ""
  · rw [if_pos huid] at h
    simp at h
  · rw [if_neg huid] at h
    by_cases hmsg : strTrim message = ""
    · rw [if_pos hmsg] at h
      simp at h
    · rw [if_neg hmsg] at h
      rcases hobt : obtainSession st now timeout userId sessionId nsid with e | trip
      · rw [hobt] at h
        simp at h
      · rw [hobt] at h
        rcases trip with ⟨session, key, st0⟩
        obtain ⟨hst0, hsesp⟩ := obtainSession_pristine hst hobt
        dsimp only at h
        have hst1 : StorePristine (insertKey st0 key (pushUserMessage session message now)) :=
          storePristine_insertKey hst0 (pristine_pushUserMessage message now hsesp)
        rcases hrap : runAgentPhase oracle
            (insertKey st0 key (pushUserMessage session message now)) now timeout
            session message with _ | pr
        · rw [show insertKey st0 key
              { session with messages := session.messages ++
                  [{ role := Role.user, content := message, timestamp := now }] }
              = insertKey st0 key (pushUserMessage session message now) from rfl] at h
          rw [hrap] at h
          simp at h
        · rcases pr with ⟨reply, st2⟩
          rw [show insertKey st0 key
              { session with messages := session.messages ++
                  [{ role := Role.user, content := message, timestamp := now }] }
              = insertKey st0 key (pushUserMessage session message now) from rfl] at h
          rw [hrap] at h
          dsimp only at h
          exact postProcess_pristine (runAgentPhase_pristine hst1 hrap) h

/-! ## Remaining small helpers -/

theorem truncateMessages_length (L : List Message) :
    (truncateMessages L).length ≤ MAX_MESSAGES := by
  unfold truncateMessages
  by_cases h : L.length > MAX_MESSAGES
  · rw [if_pos h]
    simp only [List.length_drop]
    omega
  · rw [if_neg h]
    omega

theorem turnOk_eq_some {r : Except ChatError (Option (Store × ChatResponse))}
    {p : Store × ChatResponse} (h : turnOk r = some p) : r = .ok (some p) := by
  cases r with
  | error e => simp [turnOk] at h
  | ok o =>
    cases o with
    | none => simp [turnOk] at h
    | some q =>
      simp only [turnOk, Option.some.injEq] at h
      rw [h]

/-! ## Claim theorems -/

/-- C1: a session in phase `confirmation` receiving the confirmation keyword
`好` is claimed to end the turn with `intent.confirmed = true`,
`intent.userApproved = true` and phase `data-collection`.  Evaluating the
embedded turn shows what the code actually does at that input: both intent
flags are set, but the phase stays `confirmation`, because
`analyzeAgentResponse` requests the transition `confirmation → data-collection`
while the `validTransitions` table of `transitionPhase` only allows
`confirmation → {approval, intent-detection}`, so the requested transition is
rejected as invalid and `data-collection` is unreachable — contradicting both
the specified flow and the handler's own documented merged-confirmation
design. -/
theorem c1_confirmation_turn_eval :
    c1Extract = some (Phase.confirmation, Phase.confirmation, true, true) := by decide

/-- C2: `transitionPhase` changes the phase only along the transition table,
and a target outside the allowed set of the current phase returns the session
(and the store) entirely unchanged, without throwing (the embedded function is
total). -/
theorem c2_transitionPhase_table (st : Store) (now timeout : Nat) (sid : String)
    (s : Session) (p : Phase)
    (hget : (getSession st now sid).1 = some s) :
    (p ∉ validTransitions s.phase →
      transitionPhase st now timeout sid p = (some s, st)) ∧
    (∀ s1, (transitionPhase st now timeout sid p).1 = some s1 →
      s1.phase = s.phase ∨ (s1.phase = p ∧ p ∈ validTransitions s.phase)) := by
  obtain ⟨hsid, hfind, hexp, hgs⟩ := getSession_some_elim hget
  constructor
  · intro hp
    rw [transitionPhase_found st now timeout sid p s hgs, if_neg hp]
  · intro s1 h1
    rw [transitionPhase_found st now timeout sid p s hgs] at h1
    by_cases hp : p ∈ validTransitions s.phase
    · rw [if_pos hp, updateSession_found st now timeout sid _ s hgs] at h1
      have hs1 : applyUpdates s { phase := some p } now timeout = s1 := by simpa using h1
      right
      refine ⟨?_, hp⟩
      rw [← hs1]
      simp [applyUpdates]
    · rw [if_neg hp] at h1
      have hs1 : s = s1 := by simpa using h1
      left
      rw [← hs1]

/-- Witness for C2: an attempted `recommendation → confirmation` transition is
a no-op returning the stored session and store unchanged. -/
theorem c2_transitionPhase_table_witness :
    transitionPhase c2Store 5 7 "a1" Phase.confirmation = (some c2Session, c2Store) :=
  (c2_transitionPhase_table c2Store 5 7 "a1" c2Session Phase.confirmation (by decide)).1
    (by decide)

/-- C5 counterexample: the claim says the `query_plans` approval predicate
requires approval exactly when `intent.userApproved` is not true, with no
condition on the input text.  With `userApproved = false` and input `日本`
(which contains none of the trigger words `方案/查詢/推薦/漫遊`), the code's
predicate nevertheless answers `false` (no approval needed), refuting the
claimed equivalence. -/
theorem c5_counterexample :
    (some false).getD false = false ∧
    needsApprovalQueryPlans (some false) "日本" = false := by decide

/-- C5 amended: the `query_plans` approval predicate requires approval iff the
optional-chained `userApproved` flag is not true AND the lower-cased input
contains one of the trigger words `方案/查詢/推薦/漫遊`; in particular once
`userApproved` is true no approval is ever required. -/
theorem c5_needsApproval_amended (ctxUserApproved : Option Bool) (input : String) :
    (needsApprovalQueryPlans ctxUserApproved input = true ↔
      (ctxUserApproved.getD false = false ∧
        queryPlansTriggerWords.any (fun k => strIncludes (strToLower input) k) = true)) ∧
    (∀ input2 : String, needsApprovalQueryPlans (some true) input2 = false) := by
  constructor
  · unfold needsApprovalQueryPlans
    cases hb : ctxUserApproved.getD false <;> simp [hb]
  · intro input2
    simp [needsApprovalQueryPlans]

/-- C6 amended: the fixed-window limiter resets the counter and advances the
window when no record exists or `now > windowResetAt` and then counts the
request (the first such request is accepted with the record `{count 1,
resetAt now+W}` — in particular the first request after a rollover is
accepted); a request arriving with the window already at the threshold
(`count ≥ N`) and `now ≤ windowResetAt` is rejected with `retryAfterSeconds =
ceil((windowResetAt-now)/1000)`, which is nonnegative, at most `W = 60`
whenever the window is consistent (`windowResetAt ≤ now + W·1000`), and
positive when the request arrives strictly before `windowResetAt` — but it is
`0`, not positive, at the boundary `now = windowResetAt` (see the
counterexample). -/
theorem c6_rate_limiter_amended (store : RateStore) (key : String) (now : Nat) :
    ((lookupKey store key = none ∨
        ∃ r, lookupKey store key = some r ∧ r.resetAt < now) →
      rateLimitStep store key now =
        (insertKey store key { count := 1, resetAt := now + RATE_LIMIT_WINDOW_MS }, none)) ∧
    (∀ r, lookupKey store key = some r → now ≤ r.resetAt → RATE_LIMIT_REQUESTS ≤ r.count →
      (rateLimitStep store key now).2
          = some (ceilSeconds ((r.resetAt : Int) - (now : Int))) ∧
      0 ≤ ceilSeconds ((r.resetAt : Int) - (now : Int)) ∧
      (r.resetAt ≤ now + RATE_LIMIT_WINDOW_MS →
        ceilSeconds ((r.resetAt : Int) - (now : Int)) ≤ 60) ∧
      (now < r.resetAt → 1 ≤ ceilSeconds ((r.resetAt : Int) - (now : Int)))) := by
  constructor
  · intro h
    rcases h with hnone | ⟨r, hr, hlt⟩
    · simp [rateLimitStep, hnone, RATE_LIMIT_REQUESTS]
    · simp [rateLimitStep, hr, hlt, RATE_LIMIT_REQUESTS]
  · intro r hr hle hcount
    have hnlt : ¬ (now > r.resetAt) := Nat.not_lt.mpr hle
    have hrej : r.count + 1 > RATE_LIMIT_REQUESTS := Nat.lt_succ_of_le hcount
    refine ⟨?_, ?_, ?_, ?_⟩
    · simp [rateLimitStep, hr, hnlt, hrej]
    · exact Int.ediv_nonneg (by omega) (by norm_num)
    · intro hwin
      have hwin2 : ((r.resetAt : Int) - (now : Int)) ≤ 60000 := by
        have : r.resetAt ≤ now + 60000 := by
          simpa [RATE_LIMIT_WINDOW_MS] using hwin
        omega
      unfold ceilSeconds
      calc ((r.resetAt : Int) - (now : Int) + 999).ediv 1000
          ≤ (60999 : Int).ediv 1000 := Int.ediv_le_ediv (by norm_num) (by omega)
        _ = 60 := by decide
    · intro hpos
      have hpos2 : (1 : Int) ≤ (r.resetAt : Int) - (now : Int) := by omega
      unfold ceilSeconds
      have : (1 : Int) ≤ ((r.resetAt : Int) - (now : Int) + 999) / 1000 := by
        rw [Int.le_ediv_iff_mul_le (by norm_num : (0 : Int) < 1000)]
        omega
      exact this

/-- Witness for C6's amended statement: a window at the threshold (10 counted
requests, `windowResetAt = 60000`) rejects a request at `now = 30000` with
`retryAfterSeconds = 30`. -/
theorem c6_rate_limiter_amended_witness :
    (rateLimitStep [("k", { count := 10, resetAt := 60000 })] "k" 30000).2 = some 30 :=
  (((c6_rate_limiter_amended [("k", { count := 10, resetAt := 60000 })] "k" 30000).2
      { count := 10, resetAt := 60000 } (by decide) (by decide) (by decide)).1).trans (by decide)

/-- C6 counterexample: ten requests for key `k` at `t = 0` fill the window
(`windowResetAt = 60000`); the 11th request arriving exactly at
`now = windowResetAt = 60000` is still inside the window (expiry requires
`now > windowResetAt`), is rejected, and `ceil((60000-60000)/1000) = 0` — the
claimed `retryAfterSeconds` is `0`, not positive. -/
theorem c6_counterexample :
    (rateLimitStep c6Store10 "k" 60000).2 = some 0 := by decide

/-- C7: every successful `updateSession` stamps `lastActivityAt = now` and
`expiresAt = now + TTL`, so `expiresAt = lastActivityAt + TTL` holds exactly
afterwards, and `createSession` establishes the same invariant at creation. -/
theorem c7_expiry_invariant (st : Store) (now timeout : Nat) (sid : String) (u : Updates)
    (nsid uid : String) :
    (∀ s1, (updateSession st now timeout sid u).1 = some s1 →
      s1.expiresAt = s1.lastActivityAt + timeout) ∧
    (∀ s0, lookupKey (createSession st now timeout nsid uid).1 nsid = some s0 →
      s0.expiresAt = s0.lastActivityAt + timeout) := by
  constructor
  · intro s1 h1
    unfold updateSession at h1
    rcases hg : getSession st now sid with ⟨o, st1⟩
    rw [hg] at h1
    cases o with
    | none => simp at h1
    | some s =>
      have hs1 : applyUpdates s u now timeout = s1 := by simpa using h1
      rw [← hs1]
      simp [applyUpdates]
  · intro s0 h0
    unfold createSession at h0
    rw [lookupKey_insertKey_self] at h0
    have hs0 : freshSession nsid uid now timeout = s0 := by simpa using h0
    rw [← hs0]
    simp [freshSession]

/-- Witness for C7: a concrete successful update re-establishes
`expiresAt = lastActivityAt + TTL`. -/
theorem c7_expiry_invariant_witness :
    (applyUpdates c7Session { phase := some Phase.confirmation } 100 500).expiresAt
      = (applyUpdates c7Session { phase := some Phase.confirmation } 100 500).lastActivityAt
        + 500 :=
  (c7_expiry_invariant c7Store 100 500 "s7" { phase := some Phase.confirmation } "x" "y").1
    (applyUpdates c7Session { phase := some Phase.confirmation } 100 500) (by decide)

/-- C8: after any successful `updateSession` the stored message log has at most
20 entries, and when the incoming list exceeds 20 the stored list is exactly
its last 20 entries in their original order (oldest dropped first). -/
theorem c8_messages_bound (st : Store) (now timeout : Nat) (sid : String) (u : Updates)
    (s : Session) (hget : (getSession st now sid).1 = some s) :
    ∀ s1, (updateSession st now timeout sid u).1 = some s1 →
      s1.messages.length ≤ 20 ∧
      lookupKey (updateSession st now timeout sid u).2 sid = some s1 ∧
      ((u.messages.getD s.messages).length > 20 →
        s1.messages
          = (u.messages.getD s.messages).drop ((u.messages.getD s.messages).length - 20)) := by
  obtain ⟨hsid, hfind, hexp, hgs⟩ := getSession_some_elim hget
  intro s1 h1
  rw [updateSession_found st now timeout sid u s hgs] at h1
  have hs1 : applyUpdates s u now timeout = s1 := by simpa using h1
  refine ⟨?_, ?_, ?_⟩
  · rw [← hs1]
    exact truncateMessages_length (u.messages.getD s.messages)
  · rw [updateSession_found st now timeout sid u s hgs]
    simp only [lookupKey_insertKey_self]
    rw [hs1]
  · intro hlen
    rw [← hs1]
    simp only [applyUpdates]
    unfold truncateMessages MAX_MESSAGES
    rw [if_pos hlen]

/-- Witness for C8: updating with a 22-entry list stores at most 20 entries. -/
theorem c8_messages_bound_witness :
    (applyUpdates c8Session { messages := some c8Msgs } 10 500).messages.length ≤ 20 :=
  ((c8_messages_bound c8Store 10 500 "s8" { messages := some c8Msgs } c8Session (by decide))
    (applyUpdates c8Session { messages := some c8Msgs } 10 500) (by decide)).1

/-- C9: `getSession` returns a stored session exactly when `now ≤ expiresAt`
(the boundary instant included and the store untouched), and when the session
is present but `now > expiresAt` it evicts the entry and returns absent, so the
expired session is gone on its first post-expiry access without any sweep. -/
theorem c9_get_lazy_eviction (st : Store) (now : Nat) (sid : String) (s : Session)
    (hsid : sid ≠ "") (hfind : lookupKey st sid = some s)
    (hnd : (st.map Prod.fst).Nodup) :
    (now ≤ s.expiresAt → getSession st now sid = (some s, st)) ∧
    (s.expiresAt < now →
      getSession st now sid = (none, removeKey st sid) ∧
      lookupKey (removeKey st sid) sid = none) := by
  constructor
  · intro h
    exact getSession_found st now sid s hsid hfind h
  · intro h
    refine ⟨?_, lookupKey_removeKey_of_nodup hnd⟩
    simp [getSession, hsid, hfind, h]

/-- Witness for C9: an access at `now = 200` to a session expiring at `100`
evicts it and returns absent. -/
theorem c9_get_lazy_eviction_witness :
    getSession c9Store 200 "s9" = (none, removeKey c9Store "s9") :=
  ((c9_get_lazy_eviction c9Store 200 "s9" c9Session (by decide) (by decide)
    (by decide)).2 (by decide)).1

/-- C3: on a suspended session receiving an approval message, the turn
completes, and the pending approval state is cleared exactly when the resumed
run was started (the restore and the approvals of the stored calls succeeded —
the code then invariably invokes the resume `run`); a failure while restoring
before that point leaves `pendingRunState`/`pendingInterruptions` untouched;
and once resolved, the pending state is absent at the end of the turn (the
resume path never records a new suspension). -/
theorem c3_pending_cleared_iff_resume_started (oracle : AgentOracle) (st : Store)
    (now timeout : Nat) (userId message sid nsid ps : String) (s : Session)
    (hsid : sid ≠ "") (hfind : lookupKey st sid = some s) (hexp : now ≤ s.expiresAt)
    (hkey : s.sessionId = sid) (huser : s.userId = userId) (huid : userId ≠ "")
    (hmsg : strTrim message ≠ "") (hps : s.pendingRunState = some ps)
    (happ : isApprovalMessage message = true) :
    (turnOk (handleChatRequest oracle st now timeout userId message (some sid) nsid)).isSome
      = true ∧
    ((turnStoreAt (handleChatRequest oracle st now timeout userId message (some sid) nsid)
        sid).map (fun s1 => (s1.pendingRunState, s1.pendingInterruptions)))
      = some (if (oracle.restoreOk && oracle.approveOk) = true
              then (none, [])
              else (some ps, s.pendingInterruptions)) := by
  obtain ⟨st5, updated, reply, heq, hlk, hcl, hnc⟩ :=
    handle_resume oracle st now timeout userId message sid nsid ps s hsid hfind hexp hkey
      huser huid hmsg hps happ
  constructor
  · rw [heq]
    rfl
  · rw [heq]
    cases hb : (oracle.restoreOk && oracle.approveOk) with
    | true =>
      obtain ⟨a, b⟩ := hcl hb
      simp [turnStoreAt, turnOk, hlk, a, b]
    | false =>
      obtain ⟨a, b⟩ := hnc hb
      simp [turnStoreAt, turnOk, hlk, a, b]

/-- Witness for C3: a restore failure (`RunState.fromString` throws) on a
suspended session leaves the pending continuation token and pending calls
untouched. -/
theorem c3_pending_cleared_iff_resume_started_witness :
    ((turnStoreAt (handleChatRequest c3Oracle c3Store 10 100 "u1" "好" (some "s3") "n")
        "s3").map (fun s1 => (s1.pendingRunState, s1.pendingInterruptions)))
      = some (some "tok",
          [{ name := "query_plans", agentName := "Plan Agent", arguments := "日本",
             originalPresent := true }]) :=
  ((c3_pending_cleared_iff_resume_started c3Oracle c3Store 10 100 "u1" "好" "s3" "n" "tok"
      c3Session (by decide) (by decide) (by decide) (by decide) (by decide) (by decide)
      (by decide) (by decide) (by decide)).2).trans (by decide)

/-- C4: on a suspended session, a non-approval message gives a turn whose reply
is the fixed re-ask-for-approval prompt, performs no agent run or resume (the
whole turn result is independent of the external-layer oracle), and leaves the
pending continuation token and pending calls unchanged; repeating the same
non-approval message against the resulting store again yields the same prompt
and the same pending state, so the interaction is idempotent on the pending
state and the reply. -/
theorem c4_nonapproval_idempotent (oracle oracle2 : AgentOracle) (st : Store)
    (now timeout : Nat) (userId message sid nsid ps : String) (s : Session)
    (hsid : sid ≠ "") (hfind : lookupKey st sid = some s) (hexp : now ≤ s.expiresAt)
    (hkey : s.sessionId = sid) (huser : s.userId = userId) (huid : userId ≠ "")
    (hmsg : strTrim message ≠ "") (hps : s.pendingRunState = some ps)
    (happ : isApprovalMessage message = false) :
    turnReply (handleChatRequest oracle st now timeout userId message (some sid) nsid)
      = some reaskPrompt ∧
    ((turnStoreAt (handleChatRequest oracle st now timeout userId message (some sid) nsid)
        sid).map (fun s1 => (s1.pendingRunState, s1.pendingInterruptions)))
      = some (some ps, s.pendingInterruptions) ∧
    handleChatRequest oracle2 st now timeout userId message (some sid) nsid
      = handleChatRequest oracle st now timeout userId message (some sid) nsid ∧
    turnReply (handleChatRequest oracle
        (turnStore (handleChatRequest oracle st now timeout userId message (some sid) nsid) st)
        now timeout userId message (some sid) nsid) = some reaskPrompt ∧
    ((turnStoreAt (handleChatRequest oracle
        (turnStore (handleChatRequest oracle st now timeout userId message (some sid) nsid) st)
        now timeout userId message (some sid) nsid) sid).map
      (fun s1 => (s1.pendingRunState, s1.pendingInterruptions)))
      = some (some ps, s.pendingInterruptions) := by
  obtain ⟨st5, updated, heq, hlk, p1, p2, p3, p4, p5⟩ :=
    handle_pending_nonapproval oracle st now timeout userId message sid nsid ps s
      hsid hfind hexp hkey huser huid hmsg hps happ
  have hstore : turnStore (handleChatRequest oracle st now timeout userId message (some sid)
      nsid) st = st5 := by
    rw [heq]
    rfl
  obtain ⟨st5b, updated2, heq2, hlk2, q1, q2, q3, q4, q5⟩ :=
    handle_pending_nonapproval oracle st5 now timeout userId message sid nsid ps updated
      hsid hlk (by rw [p5]; exact Nat.le_add_right now timeout) p3 p4 huid hmsg p1 happ
  refine ⟨?_, ?_, ?_, ?_, ?_⟩
  · rw [heq]
    simp [turnReply, turnOk, buildResponse]
  · rw [heq]
    simp [turnStoreAt, turnOk, hlk, p1, p2]
  · rw [handle_pending_nonapproval_eq oracle st now timeout userId message sid nsid ps s
        hsid hfind hexp huser huid hmsg hps happ,
      handle_pending_nonapproval_eq oracle2 st now timeout userId message sid nsid ps s
        hsid hfind hexp huser huid hmsg hps happ]
  · rw [hstore, heq2]
    simp [turnReply, turnOk, buildResponse]
  · rw [hstore, heq2]
    simp [turnStoreAt, turnOk, hlk2, q1, q2, p2]

/-- Witness for C4: a suspended session receiving the non-approval message
`嗯嗯` replies with the fixed re-ask prompt. -/
theorem c4_nonapproval_idempotent_witness :
    turnReply (handleChatRequest c4Oracle c4Store 10 100 "u1" "嗯嗯" (some "s4") "n")
      = some reaskPrompt :=
  (c4_nonapproval_idempotent c4Oracle c4Oracle2 c4Store 10 100 "u1" "嗯嗯" "s4" "n" "tok4"
    c4Session (by decide) (by decide) (by decide) (by decide) (by decide) (by decide)
    (by decide) (by decide) (by decide)).1

/-- C10: no operation of the core ever assigns `usageData`, `roamingPlans` or
`recommendation` after creation — a store whose sessions all carry the creation
values (`null`, `[]`, `null`) still does after any whole turn, and consequently
the turn's response `data` object omits the `usage`, `plans` and
`recommendation` fields. -/
theorem c10_pristine_fields (oracle : AgentOracle) (st : Store) (now timeout : Nat)
    (userId message : String) (sessionId : Option String) (nsid : String)
    (pr : Store × ChatResponse)
    (hst : StorePristine st)
    (h : turnOk (handleChatRequest oracle st now timeout userId message sessionId nsid)
      = some pr) :
    StorePristine pr.1 ∧ pr.2.data.usage = none ∧ pr.2.data.plans = none ∧
      pr.2.data.recommendation = none := by
  obtain ⟨stR, resp⟩ := pr
  exact handleChatRequest_pristine hst (turnOk_eq_some h)

/-- Witness for C10: a fresh-session turn produces a pristine store and a
response whose data object omits usage, plans and recommendation. -/
theorem c10_pristine_fields_witness :
    StorePristine c10Pair.1 ∧ c10Pair.2.data.usage = none ∧
    c10Pair.2.data.plans = none ∧ c10Pair.2.data.recommendation = none :=
  c10_pristine_fields c10Oracle [] 0 1000 "u9" "你好" none "ns1" c10Pair (by decide)
    (by decide)

end RoamingCore
